import Mathlib

/-!
Verification development for the lateralization-lab widget's statistical
engine (`src/app/page.tsx`).  JavaScript numbers are modelled by `JsNum`:
an exact real payload together with the IEEE special values `NaN`,
`Infinity` and `-Infinity`.  Negative zero is not modelled (the real
payload identifies `-0` with `0`); none of the properties below depend on
the sign of zero.  Every operation mirrors the corresponding JavaScript
primitive used by the source file.
-/

set_option autoImplicit false

namespace LatStat

open Classical

noncomputable section

/-- Model of a JavaScript number: `NaN`, `Infinity`, `-Infinity`, or a
finite value carried exactly as a real number. -/
inductive JsNum where
  | nan : JsNum
  | inf : JsNum
  | ninf : JsNum
  | finite : ℝ → JsNum

namespace JsNum

/-- Source `Number.isFinite`. -/
def isFinite : JsNum → Bool
  | finite _ => true
  | _ => false

end JsNum

open JsNum

/-- JS unary minus. -/
def negJs : JsNum → JsNum
  | nan => nan
  | inf => ninf
  | ninf => inf
  | finite v => finite (-v)

/-- JS addition. -/
def addJs : JsNum → JsNum → JsNum
  | nan, _ => nan
  | _, nan => nan
  | inf, ninf => nan
  | ninf, inf => nan
  | inf, _ => inf
  | _, inf => inf
  | ninf, _ => ninf
  | _, ninf => ninf
  | finite a, finite b => finite (a + b)

/-- JS subtraction (`a - b` behaves as `a + (-b)`). -/
def subJs (a b : JsNum) : JsNum := addJs a (negJs b)

/-- JS multiplication; `0 * Infinity` is `NaN`. -/
def mulJs : JsNum → JsNum → JsNum
  | nan, _ => nan
  | _, nan => nan
  | inf, inf => inf
  | inf, ninf => ninf
  | ninf, inf => ninf
  | ninf, ninf => inf
  | inf, finite b => if b = 0 then nan else if b < 0 then ninf else inf
  | finite a, inf => if a = 0 then nan else if a < 0 then ninf else inf
  | ninf, finite b => if b = 0 then nan else if b < 0 then inf else ninf
  | finite a, ninf => if a = 0 then nan else if a < 0 then inf else ninf
  | finite a, finite b => finite (a * b)

/-- JS division; `0/0` is `NaN`, a nonzero finite value over `0` gives a
signed infinity, a finite value over an infinity gives `0`. -/
def divJs : JsNum → JsNum → JsNum
  | nan, _ => nan
  | _, nan => nan
  | inf, inf => nan
  | inf, ninf => nan
  | ninf, inf => nan
  | ninf, ninf => nan
  | inf, finite b => if b < 0 then ninf else inf
  | ninf, finite b => if b < 0 then inf else ninf
  | finite _, inf => finite 0
  | finite _, ninf => finite 0
  | finite a, finite b =>
      if b = 0 then (if a = 0 then nan else if a < 0 then ninf else inf)
      else finite (a / b)

/-- Source `Math.abs`. -/
def absJs : JsNum → JsNum
  | nan => nan
  | inf => inf
  | ninf => inf
  | finite v => finite |v|

/-- Source `Math.min` (propagates `NaN`). -/
def minJs : JsNum → JsNum → JsNum
  | nan, _ => nan
  | _, nan => nan
  | ninf, _ => ninf
  | _, ninf => ninf
  | inf, y => y
  | x, inf => x
  | finite a, finite b => finite (min a b)

/-- Source `Math.max` (propagates `NaN`). -/
def maxJs : JsNum → JsNum → JsNum
  | nan, _ => nan
  | _, nan => nan
  | inf, _ => inf
  | _, inf => inf
  | ninf, y => y
  | x, ninf => x
  | finite a, finite b => finite (max a b)

/-- Source `Math.sqrt`; negative arguments give `NaN`. -/
def sqrtJs : JsNum → JsNum
  | nan => nan
  | inf => inf
  | ninf => nan
  | finite v => if v < 0 then nan else finite (Real.sqrt v)

/-- Source `Math.exp`. -/
def expJs : JsNum → JsNum
  | nan => nan
  | inf => inf
  | ninf => finite 0
  | finite v => finite (Real.exp v)

/-- Source `Math.log`; `log 0 = -Infinity`, negative arguments give `NaN`. -/
def logJs : JsNum → JsNum
  | nan => nan
  | inf => inf
  | ninf => nan
  | finite v => if v < 0 then nan else if v = 0 then ninf else finite (Real.log v)

/-- Source `Math.sin`; infinite arguments give `NaN`. -/
def sinJs : JsNum → JsNum
  | nan => nan
  | inf => nan
  | ninf => nan
  | finite v => finite (Real.sin v)

/-- Source `x ** 2` (only squaring is used by the source). -/
def sqJs (x : JsNum) : JsNum := mulJs x x

/-- JS `<` (false whenever either side is `NaN`). -/
def ltJs : JsNum → JsNum → Bool
  | nan, _ => false
  | _, nan => false
  | ninf, ninf => false
  | ninf, _ => true
  | _, ninf => false
  | inf, _ => false
  | finite _, inf => true
  | finite a, finite b => decide (a < b)

/-- JS `>=` (false whenever either side is `NaN`). -/
def geJs : JsNum → JsNum → Bool
  | nan, _ => false
  | _, nan => false
  | inf, _ => true
  | _, inf => false
  | _, ninf => true
  | ninf, _ => false
  | finite a, finite b => decide (b ≤ a)

/-- JS `===` on numbers (`NaN` equals nothing). -/
def eqJs : JsNum → JsNum → Bool
  | nan, _ => false
  | _, nan => false
  | inf, inf => true
  | ninf, ninf => true
  | inf, _ => false
  | _, inf => false
  | ninf, _ => false
  | _, ninf => false
  | finite a, finite b => decide (a = b)

/-- Source `clamp(x, lo, hi) = Math.max(lo, Math.min(hi, x))` from the source. -/
def clampJs (x lo hi : JsNum) : JsNum := maxJs lo (minJs hi x)

/-- Source `expr || 0` for a numeric `expr`: `NaN` (and `0` itself) collapse to
`0`, everything else is returned unchanged. -/
def orZeroJs : JsNum → JsNum
  | nan => finite 0
  | x => x

/-! ### NumericSummary (source lines 24-40) -/

/-- Source `arr.reduce((a, b) => a + b, 0)`. -/
def sumJs (l : List JsNum) : JsNum := l.foldl addJs (finite 0)

/-- Source `mean(arr)`: the running JS sum divided by the length. -/
def meanJs (l : List JsNum) : JsNum := divJs (sumJs l) (finite l.length)

/-- Numerator of `varianceSample`: `arr.reduce((acc, v) => acc + (v - m) ** 2, 0)`
with `m = mean(arr)`. -/
def varNumJs (l : List JsNum) : JsNum :=
  l.foldl (fun acc v => addJs acc (sqJs (subJs v (meanJs l)))) (finite 0)

/-- Source `varianceSample(arr)`: squared deviations over `n - 1`. -/
def varianceJs (l : List JsNum) : JsNum :=
  divJs (varNumJs l) (finite ((l.length : ℝ) - 1))

/-- Source `sd(arr) = Math.sqrt(varianceSample(arr))`. -/
def sdJs (l : List JsNum) : JsNum := sqrtJs (varianceJs l)

/-- Source `NumericSummary`: count, mean, sample sd, standard error. -/
structure Summary where
  n : ℕ
  mean : JsNum
  sd : JsNum
  se : JsNum

/-- Source `summarize(arr)` (source lines 34-40). -/
def summarize (l : List JsNum) : Summary :=
  { n := l.length
    mean := meanJs l
    sd := sdJs l
    se := divJs (sdJs l) (sqrtJs (finite l.length)) }

/-! ### SpecialFunctions (source lines 52-148) -/

/-- Lanczos coefficient table of `logGamma` (source lines 54-63). -/
def lanczosP : List ℝ :=
  [676.5203681218851, -1259.1392167224028, 771.3234287776531,
   -176.6150291621406, 12.507343278686905, -0.13857109526572012,
   9.984369578019572e-6, 1.5056327351493116e-7]

/-- The non-reflected branch of `logGamma` (source lines 71-80):
`z -= 1`, sum the coefficient series, and assemble the Lanczos formula. -/
def logGammaMain (z : JsNum) : JsNum :=
  let z1 := subJs z (finite 1)
  let x := (List.range 8).foldl
    (fun acc i => addJs acc (divJs (finite (lanczosP.getD i 0)) (addJs z1 (finite ((i : ℝ) + 1)))))
    (finite 0.9999999999998099)
  let t := subJs (addJs z1 (finite 8)) (finite (1/2))
  addJs
    (subJs
      (addJs (mulJs (finite (1/2)) (logJs (mulJs (finite 2) (finite Real.pi))))
        (mulJs (addJs z1 (finite (1/2))) (logJs t)))
      t)
    (logJs x)

/-- Source `logGamma(z)` (source lines 52-81).  For `z < 0.5` the source applies
the reflection formula and recurses on `1 - z`; since `1 - z` then
exceeds `0.5`, that recursive call lands in the main branch, which is how
the recursion is unfolded here. -/
def logGammaJs (z : JsNum) : JsNum :=
  if ltJs z (finite (1/2)) then
    subJs
      (subJs (logJs (finite Real.pi)) (logJs (sinJs (mulJs (finite Real.pi) z))))
      (logGammaMain (subJs (finite 1) z))
  else logGammaMain z

/-- Source `FPMIN = 1e-30` as a `JsNum`. -/
def fpminJ : JsNum := finite (1 / 10 ^ 30)

/-- Source `EPS = 3e-12` as a `JsNum`. -/
def epsJ : JsNum := finite (3 / 10 ^ 12)

/-- The mutable state of `betacf`'s Lentz loop. -/
structure CFState where
  c : JsNum
  d : JsNum
  h : JsNum

/-- Initialization of `betacf` before the loop (source lines 87-95). -/
def betacfInit (a b x : JsNum) : CFState :=
  let qab := addJs a b
  let qap := addJs a (finite 1)
  let d0 := subJs (finite 1) (divJs (mulJs qab x) qap)
  let d1 := if ltJs (absJs d0) fpminJ then fpminJ else d0
  let d2 := divJs (finite 1) d1
  { c := finite 1, d := d2, h := d2 }

/-- One iteration of `betacf`'s loop body for index `m` (source lines
97-117); the returned `Bool` is the break condition `|del - 1| < EPS`. -/
def betacfStep (a b x : JsNum) (m : ℕ) (s : CFState) : CFState × Bool :=
  let qab := addJs a b
  let qap := addJs a (finite 1)
  let qam := subJs a (finite 1)
  let mJ : JsNum := finite (m : ℝ)
  let m2 : JsNum := finite ((2 * m : ℕ) : ℝ)
  let aa1 := divJs (mulJs (mulJs mJ (subJs b mJ)) x)
    (mulJs (addJs qam m2) (addJs a m2))
  let da := addJs (finite 1) (mulJs aa1 s.d)
  let da' := if ltJs (absJs da) fpminJ then fpminJ else da
  let ca := addJs (finite 1) (divJs aa1 s.c)
  let ca' := if ltJs (absJs ca) fpminJ then fpminJ else ca
  let da'' := divJs (finite 1) da'
  let h1 := mulJs s.h (mulJs da'' ca')
  let aa2 := divJs (mulJs (mulJs (negJs (addJs a mJ)) (addJs qab mJ)) x)
    (mulJs (addJs a m2) (addJs qap m2))
  let db := addJs (finite 1) (mulJs aa2 da'')
  let db' := if ltJs (absJs db) fpminJ then fpminJ else db
  let cb := addJs (finite 1) (divJs aa2 ca')
  let cb' := if ltJs (absJs cb) fpminJ then fpminJ else cb
  let db'' := divJs (finite 1) db'
  let del := mulJs db'' cb'
  let h2 := mulJs h1 del
  (⟨cb', db'', h2⟩, ltJs (absJs (subJs del (finite 1))) epsJ)

/-- The `for`-loop of `betacf`, recursing on the remaining fuel and
returning the final state together with the number of iterations that
were executed. -/
def betacfLoop (a b x : JsNum) : ℕ → ℕ → CFState → CFState × ℕ
  | 0, _, s => (s, 0)
  | fuel + 1, m, s =>
      let r := betacfStep a b x m s
      if r.2 then (r.1, 1)
      else
        let r2 := betacfLoop a b x fuel (m + 1) r.1
        (r2.1, r2.2 + 1)

/-- Source `betacf(a, b, x)` (source lines 82-120): Lentz continued fraction with
`MAX_ITER = 200`. -/
def betacfJs (a b x : JsNum) : JsNum :=
  (betacfLoop a b x 200 1 (betacfInit a b x)).1.h

/-- Number of loop iterations `betacf(a, b, x)` executes. -/
def betacfIters (a b x : JsNum) : ℕ :=
  (betacfLoop a b x 200 1 (betacfInit a b x)).2

/-- Source `regIncompleteBeta(a, b, x)` (source lines 121-137). -/
def regIncompleteBeta (a b x : JsNum) : JsNum :=
  let xx := clampJs x (finite 0) (finite 1)
  if eqJs xx (finite 0) then finite 0
  else if eqJs xx (finite 1) then finite 1
  else
    let bt := orZeroJs (expJs
      (addJs
        (addJs
          (subJs (subJs (logGammaJs (addJs a b)) (logGammaJs a)) (logGammaJs b))
          (mulJs a (logJs xx)))
        (mulJs b (logJs (subJs (finite 1) xx)))))
    if ltJs xx (divJs (addJs a (finite 1)) (addJs (addJs a b) (finite 2))) then
      divJs (mulJs bt (betacfJs a b xx)) a
    else
      subJs (finite 1) (divJs (mulJs bt (betacfJs b a (subJs (finite 1) xx))) b)

/-- Source `studentTCdf(t, df)` (source lines 138-144). -/
def studentTCdf (t df : JsNum) : JsNum :=
  let x := divJs df (addJs df (mulJs t t))
  let a := divJs df (finite 2)
  let b : JsNum := finite (1/2)
  let ib := regIncompleteBeta a b x
  if geJs t (finite 0) then subJs (finite 1) (mulJs (finite (1/2)) ib)
  else mulJs (finite (1/2)) ib

/-- Source `pTwoSidedFromT(t, df)` (source lines 145-148). -/
def pTwoSidedFromT (t df : JsNum) : JsNum :=
  clampJs (mulJs (finite 2) (subJs (finite 1) (studentTCdf (absJs t) df)))
    (finite 0) (finite 1)

/-! ### TestProcedures (source lines 151-210) -/

/-- Source `a.map((v, i) => v - b[i])`: out-of-range accesses of `b` read JS
`undefined`, and `v - undefined` is `NaN`. -/
def pairedDiffs : List JsNum → List JsNum → List JsNum
  | [], _ => []
  | v :: a, [] => subJs v nan :: pairedDiffs a []
  | v :: a, w :: b => subJs v w :: pairedDiffs a b

/-- Result record of `pairedTTest`. -/
structure PairedRes where
  t : JsNum
  df : JsNum
  p : JsNum
  d : JsNum

/-- Source `pairedTTest(a, b)` (source lines 151-159). -/
def pairedTTest (a b : List JsNum) : PairedRes :=
  let s := summarize (pairedDiffs a b)
  let t := divJs s.mean (divJs s.sd (sqrtJs (finite s.n)))
  let df : JsNum := finite ((s.n : ℝ) - 1)
  { t := t, df := df, p := pTwoSidedFromT t df, d := divJs s.mean s.sd }

/-- Result record of `oneSampleT`. -/
structure OneSampleRes where
  t : JsNum
  df : JsNum
  p : JsNum
  d : JsNum
  s : Summary

/-- Source `oneSampleT(arr, mu)` (source lines 160-167). -/
def oneSampleT (arr : List JsNum) (mu : JsNum) : OneSampleRes :=
  let s := summarize arr
  let t := divJs (subJs s.mean mu) (divJs s.sd (sqrtJs (finite s.n)))
  let df : JsNum := finite ((s.n : ℝ) - 1)
  { t := t, df := df, p := pTwoSidedFromT t df, d := divJs (subJs s.mean mu) s.sd, s := s }

/-- Result record of `welchTTest`. -/
structure WelchRes where
  t : JsNum
  df : JsNum
  p : JsNum
  g : JsNum
  sa : Summary
  sb : Summary

/-- Source `welchTTest(a, b)` (source lines 168-190). -/
def welchTTest (a b : List JsNum) : WelchRes :=
  let sa := summarize a
  let sb := summarize b
  let va := sqJs sa.sd
  let vb := sqJs sb.sd
  let naJ : JsNum := finite (sa.n : ℝ)
  let nbJ : JsNum := finite (sb.n : ℝ)
  let t := divJs (subJs sa.mean sb.mean)
    (sqrtJs (addJs (divJs va naJ) (divJs vb nbJ)))
  let num := sqJs (addJs (divJs va naJ) (divJs vb nbJ))
  let den := addJs
    (divJs (sqJs va) (mulJs (sqJs naJ) (subJs naJ (finite 1))))
    (divJs (sqJs vb) (mulJs (sqJs nbJ) (subJs nbJ (finite 1))))
  let df := divJs num den
  let sp := sqrtJs (divJs
    (addJs (mulJs (subJs naJ (finite 1)) va) (mulJs (subJs nbJ (finite 1)) vb))
    (subJs (addJs naJ nbJ) (finite 2)))
  let d := divJs (subJs sa.mean sb.mean) sp
  let J := subJs (finite 1) (divJs (finite 3)
    (subJs (mulJs (finite 4) (addJs naJ nbJ)) (finite 9)))
  { t := t, df := df, p := pTwoSidedFromT t df, g := mulJs d J, sa := sa, sb := sb }

/-- Result record of `pearsonCorrelation`. -/
structure CorrRes where
  r : JsNum
  t : JsNum
  df : JsNum
  p : JsNum

/-- Source `pearsonCorrelation(x, y)` (source lines 191-210): the accumulation
loop runs over the indices of `x`, reading `y[i]` (JS `undefined`, hence
`NaN`, when `y` is shorter). -/
def pearsonCorrelation (x y : List JsNum) : CorrRes :=
  let n := x.length
  let mx := meanJs x
  let my := meanJs y
  let acc := (List.range n).foldl
    (fun (acc : JsNum × JsNum × JsNum) i =>
      let vx := subJs (x.getD i nan) mx
      let vy := subJs (y.getD i nan) my
      (addJs acc.1 (mulJs vx vy),
       addJs acc.2.1 (mulJs vx vx),
       addJs acc.2.2 (mulJs vy vy)))
    (finite 0, finite 0, finite 0)
  let r := divJs acc.1 (sqrtJs (mulJs acc.2.1 acc.2.2))
  let df : JsNum := finite ((n : ℝ) - 2)
  let t := mulJs r (sqrtJs (divJs df (subJs (finite 1) (mulJs r r))))
  { r := r, t := t, df := df, p := pTwoSidedFromT t df }

/-! ### ResultFormatter (source lines 318-323 and 369-390) -/

/-- Fixed-point rendering of a natural number `m` that already carries
`d` decimal digits: integer part, a dot, and the `d`-digit zero-padded
fraction (used with `d ≥ 1`, as in the source). -/
def natFixedString (m d : ℕ) : String :=
  let ip := m / 10 ^ d
  let fp := m % 10 ^ d
  let fs := toString fp
  let pad := String.mk (List.replicate (d - fs.length) '0')
  toString ip ++ "." ++ pad ++ fs

/-- Rounding performed by `toFixed`: nearest multiple of `10 ^ (-d)`,
ties away from zero (the ECMAScript algorithm first splits off the sign
and rounds the absolute value, ties upward). -/
def jsRoundNat (v : ℝ) (d : ℕ) : ℕ := (⌊v * 10 ^ d + 1/2⌋).toNat

/-- Source `v.toFixed(d)` for a finite value `v`. -/
def toFixedR (v : ℝ) (d : ℕ) : String :=
  if v < 0 then "-" ++ natFixedString (jsRoundNat (-v) d) d
  else natFixedString (jsRoundNat v d) d

/-- Source `x.toFixed(d)`: non-finite numbers print as `"NaN"`, `"Infinity"`,
`"-Infinity"` exactly as in JS. -/
def toFixedJs (x : JsNum) (d : ℕ) : String :=
  match x with
  | nan => "NaN"
  | inf => "Infinity"
  | ninf => "-Infinity"
  | finite v => toFixedR v d

/-- JS number-to-string coercion as it occurs in `"t(" + res.df + ")"`.
It is modelled exactly for the non-finite values and for integral finite
values, the only payloads that reach it in the source; other finite
values map to a placeholder. -/
def jsToStr : JsNum → String
  | nan => "NaN"
  | inf => "Infinity"
  | ninf => "-Infinity"
  | finite v => if (⌊v⌋ : ℝ) = v then toString ⌊v⌋ else "NONINTEGRAL"

/-- Source `fmt` (source line 318): finite values to two decimals, otherwise
the literal `"NA"`. -/
def fmt (x : JsNum) : String :=
  if x.isFinite then toFixedJs x 2 else "NA"

/-- Source `.replace(/^0/, "")`: drop a single leading `'0'`. -/
def stripLeadingZero (s : String) : String :=
  match s.data with
  | '0' :: rest => String.mk rest
  | _ => s

/-- Source `fmtP` (source lines 319-323). -/
def fmtP (p : JsNum) : String :=
  if p.isFinite then
    if ltJs p (finite (1/1000)) then "< .001"
    else stripLeadingZero (toFixedJs p 3)
  else "NA"

/-- The paired-branch APA sentence (source lines 369-390).  Means and
standard deviations go through `fmt`; `t` and `d` are rendered with
`toFixed(2)` directly; `df` is string-coerced; `p` goes through `fmtP`. -/
def apaPaired (nameA nameB : String) (sa sb : Summary) (res : PairedRes) : String :=
  "A paired-samples t-test compared " ++ nameA ++ " (M = " ++ fmt sa.mean ++
  ", SD = " ++ fmt sa.sd ++ ") and " ++ nameB ++ " (M = " ++ fmt sb.mean ++
  ", SD = " ++ fmt sb.sd ++ "). The analysis yielded t(" ++ jsToStr res.df ++
  ") = " ++ toFixedJs res.t 2 ++ ", p = " ++ fmtP res.p ++ ", d = " ++
  toFixedJs res.d 2 ++ "."

/-! ### The analysis dispatcher's per-branch validation (source lines
358-478).  Each branch receives the vectors the UI layer extracted from
the rows (non-numeric entries already dropped) and validates them before
invoking the statistical procedure. -/

/-- Error taxonomy of the validation step. -/
inductive ErrKind where
  | insufficientData : ErrKind
  | invalidParameter : ErrKind
deriving DecidableEq

/-- Paired branch (source lines 359-391): requires at least 3 paired
rows, then reports the APA sentence. -/
def outputPaired (nameA nameB : String) (a b : List JsNum) : Except ErrKind String :=
  if a.length < 3 then .error .insufficientData
  else .ok (apaPaired nameA nameB (summarize a) (summarize b) (pairedTTest a b))

/-- One-sample branch (source lines 394-414): requires at least 3
numeric rows, then a finite `μ0`. -/
def outputOneSample (vec : List JsNum) (mu : JsNum) : Except ErrKind OneSampleRes :=
  if vec.length < 3 then .error .insufficientData
  else if mu.isFinite = false then .error .invalidParameter
  else .ok (oneSampleT vec mu)

/-- Independent branch (source lines 417-452): requires a valid choice of
two distinct non-empty groups, then at least 2 observations per group. -/
def outputIndependent (gVar gA gB : String) (a b : List JsNum) : Except ErrKind WelchRes :=
  if gVar = "" ∨ gA = "" ∨ gB = "" ∨ gA = gB then .error .invalidParameter
  else if a.length < 2 ∨ b.length < 2 then .error .insufficientData
  else .ok (welchTTest a b)

/-- Correlation branch (source lines 455-478): requires at least 4
complete pairs. -/
def outputCorrelation (pts : List (JsNum × JsNum)) : Except ErrKind CorrRes :=
  if pts.length < 4 then .error .insufficientData
  else .ok (pearsonCorrelation (pts.map Prod.fst) (pts.map Prod.snd))

/-! ### Real-valued shadow of the summary statistics, used to state the
formula-level claims about finite input vectors. -/

/-- Sum of a real vector, with the same fold shape as the source. -/
def sumR (l : List ℝ) : ℝ := l.foldl (· + ·) 0

/-- Arithmetic mean of a real vector. -/
def meanR (l : List ℝ) : ℝ := sumR l / l.length

/-- Sum of squared deviations from the mean. -/
def varNumR (l : List ℝ) : ℝ :=
  l.foldl (fun acc v => acc + (v - meanR l) ^ 2) 0

/-- Sample variance (denominator `n - 1`). -/
def varianceR (l : List ℝ) : ℝ := varNumR l / ((l.length : ℝ) - 1)

/-- Sample standard deviation. -/
def sdR (l : List ℝ) : ℝ := Real.sqrt (varianceR l)

/-- Pointwise differences of two equally long real vectors. -/
def diffsR (a b : List ℝ) : List ℝ := List.zipWith (· - ·) a b

/-- Source `P ∈ [0, 1]` for a `JsNum`: the value is finite and lies in the unit
interval. -/
def inUnitJs : JsNum → Prop
  | finite v => 0 ≤ v ∧ v ≤ 1
  | _ => False

end

open JsNum

/-! ### Propagation lemmas for the special values -/

@[simp] theorem negJs_nan : negJs nan = nan := rfl

@[simp] theorem addJs_nan_left (x : JsNum) : addJs nan x = nan := by cases x <;> rfl

@[simp] theorem addJs_nan_right (x : JsNum) : addJs x nan = nan := by cases x <;> rfl

@[simp] theorem subJs_nan_left (x : JsNum) : subJs nan x = nan := by cases x <;> rfl

@[simp] theorem subJs_nan_right (x : JsNum) : subJs x nan = nan := by cases x <;> rfl

@[simp] theorem mulJs_nan_left (x : JsNum) : mulJs nan x = nan := by cases x <;> rfl

@[simp] theorem mulJs_nan_right (x : JsNum) : mulJs x nan = nan := by cases x <;> rfl

@[simp] theorem divJs_nan_left (x : JsNum) : divJs nan x = nan := by cases x <;> rfl

@[simp] theorem divJs_nan_right (x : JsNum) : divJs x nan = nan := by cases x <;> rfl

@[simp] theorem absJs_nan : absJs nan = nan := rfl

@[simp] theorem minJs_nan_left (x : JsNum) : minJs nan x = nan := by cases x <;> rfl

@[simp] theorem minJs_nan_right (x : JsNum) : minJs x nan = nan := by cases x <;> rfl

@[simp] theorem maxJs_nan_left (x : JsNum) : maxJs nan x = nan := by cases x <;> rfl

@[simp] theorem maxJs_nan_right (x : JsNum) : maxJs x nan = nan := by cases x <;> rfl

@[simp] theorem sqrtJs_nan : sqrtJs nan = nan := rfl

@[simp] theorem expJs_nan : expJs nan = nan := rfl

@[simp] theorem logJs_nan : logJs nan = nan := rfl

@[simp] theorem sinJs_nan : sinJs nan = nan := rfl

@[simp] theorem sqJs_nan : sqJs nan = nan := rfl

@[simp] theorem ltJs_nan_left (x : JsNum) : ltJs nan x = false := by cases x <;> rfl

@[simp] theorem ltJs_nan_right (x : JsNum) : ltJs x nan = false := by cases x <;> rfl

@[simp] theorem geJs_nan_left (x : JsNum) : geJs nan x = false := by cases x <;> rfl

@[simp] theorem geJs_nan_right (x : JsNum) : geJs x nan = false := by cases x <;> rfl

@[simp] theorem eqJs_nan_left (x : JsNum) : eqJs nan x = false := by cases x <;> rfl

@[simp] theorem eqJs_nan_right (x : JsNum) : eqJs x nan = false := by cases x <;> rfl

@[simp] theorem orZeroJs_nan : orZeroJs nan = finite 0 := rfl

@[simp] theorem clampJs_nan (lo hi : JsNum) : clampJs nan lo hi = nan := by
  simp [clampJs]

/-! ### Computation lemmas on finite values -/

@[simp] theorem negJs_finite (a : ℝ) : negJs (finite a) = finite (-a) := rfl

@[simp] theorem addJs_finite (a b : ℝ) :
    addJs (finite a) (finite b) = finite (a + b) := rfl

@[simp] theorem subJs_finite (a b : ℝ) :
    subJs (finite a) (finite b) = finite (a - b) := by
  simp [subJs, sub_eq_add_neg]

@[simp] theorem mulJs_finite (a b : ℝ) :
    mulJs (finite a) (finite b) = finite (a * b) := rfl

theorem divJs_finite (a : ℝ) {b : ℝ} (h : b ≠ 0) :
    divJs (finite a) (finite b) = finite (a / b) := by
  simp [divJs, h]

theorem divJs_zero_zero : divJs (finite 0) (finite 0) = nan := by
  simp [divJs]

theorem divJs_neg_zero {a : ℝ} (h : a < 0) :
    divJs (finite a) (finite 0) = ninf := by
  simp [divJs, h, h.ne]

theorem divJs_pos_zero {a : ℝ} (h : 0 < a) :
    divJs (finite a) (finite 0) = inf := by
  simp [divJs, h.ne', not_lt.mpr h.le]

@[simp] theorem absJs_finite (a : ℝ) : absJs (finite a) = finite |a| := rfl

@[simp] theorem minJs_finite (a b : ℝ) :
    minJs (finite a) (finite b) = finite (min a b) := rfl

@[simp] theorem maxJs_finite (a b : ℝ) :
    maxJs (finite a) (finite b) = finite (max a b) := rfl

theorem sqrtJs_finite {v : ℝ} (h : 0 ≤ v) :
    sqrtJs (finite v) = finite (Real.sqrt v) := by
  simp [sqrtJs, not_lt.mpr h]

@[simp] theorem ltJs_finite (a b : ℝ) :
    ltJs (finite a) (finite b) = decide (a < b) := rfl

@[simp] theorem geJs_finite (a b : ℝ) :
    geJs (finite a) (finite b) = decide (b ≤ a) := rfl

@[simp] theorem eqJs_finite (a b : ℝ) :
    eqJs (finite a) (finite b) = decide (a = b) := rfl

@[simp] theorem isFinite_finite (a : ℝ) : (finite a).isFinite = true := rfl

@[simp] theorem isFinite_nan : (nan : JsNum).isFinite = false := rfl

@[simp] theorem isFinite_inf : (inf : JsNum).isFinite = false := rfl

@[simp] theorem isFinite_ninf : (ninf : JsNum).isFinite = false := rfl

/-- The clamp to `[0, 1]` returns either a finite value of the unit
interval or `NaN`. -/
theorem clamp01_cases (y : JsNum) :
    inUnitJs (clampJs y (finite 0) (finite 1)) ∨
      clampJs y (finite 0) (finite 1) = nan := by
  cases y with
  | nan => right; rfl
  | inf => exact Or.inl ⟨le_max_left 0 1, max_le zero_le_one le_rfl⟩
  | ninf => exact Or.inl ⟨le_refl 0, zero_le_one⟩
  | finite v => exact Or.inl ⟨le_max_left 0 _, max_le zero_le_one (min_le_left 1 v)⟩

/-! ### `betacf` on `NaN` input -/

set_option maxRecDepth 40000 in
/-- With `x = NaN`, every loop iteration of `betacf` turns the whole
state into `NaN` and never triggers the break. -/
theorem betacfStep_nan (a b : JsNum) (m : ℕ) (s : CFState) :
    betacfStep a b nan m s = (⟨nan, nan, nan⟩, false) := by
  simp only [betacfStep, mulJs_nan_right, mulJs_nan_left, divJs_nan_left,
    divJs_nan_right, addJs_nan_right, subJs_nan_right, subJs_nan_left,
    absJs_nan, ltJs_nan_left, Bool.false_eq_true, if_false]

/-- Once the state is all-`NaN` and `x = NaN`, the loop runs through its
whole fuel. -/
theorem betacfLoop_nan (a b : JsNum) :
    ∀ fuel m, betacfLoop a b nan fuel m ⟨nan, nan, nan⟩ = (⟨nan, nan, nan⟩, fuel) := by
  intro fuel
  induction fuel with
  | zero => intro m; rfl
  | succ n ih =>
      intro m
      simp only [betacfLoop, betacfStep_nan, Bool.false_eq_true, if_false, ih]

/-- Source `betacf(a, b, NaN) = NaN`. -/
theorem betacfJs_nan (a b : JsNum) : betacfJs a b nan = nan := by
  have h : betacfLoop a b nan 200 1 (betacfInit a b nan) = (⟨nan, nan, nan⟩, 200) := by
    rw [show (200 : ℕ) = 199 + 1 from rfl, betacfLoop, betacfStep_nan]
    simp only [Bool.false_eq_true, if_false, betacfLoop_nan]
  rw [betacfJs, h]

/-- A `NaN` statistic propagates to a `NaN` two-sided p-value, whatever
the degrees of freedom. -/
theorem pTwoSided_nan (df : JsNum) : pTwoSidedFromT nan df = nan := by
  unfold pTwoSidedFromT studentTCdf regIncompleteBeta
  simp [betacfJs_nan]

/-! ### Unconditional rewrites exposing the finite-value branches -/

@[simp] theorem divJs_finite_ite (a b : ℝ) :
    divJs (finite a) (finite b) =
      if b = 0 then (if a = 0 then nan else if a < 0 then ninf else inf)
      else finite (a / b) := rfl

@[simp] theorem sqrtJs_finite_ite (v : ℝ) :
    sqrtJs (finite v) = if v < 0 then nan else finite (Real.sqrt v) := rfl

@[simp] theorem logJs_finite_ite (v : ℝ) :
    logJs (finite v) =
      if v < 0 then nan else if v = 0 then ninf else finite (Real.log v) := rfl

@[simp] theorem expJs_finite (v : ℝ) : expJs (finite v) = finite (Real.exp v) := rfl

@[simp] theorem sinJs_finite (v : ℝ) : sinJs (finite v) = finite (Real.sin v) := rfl

/-- Source `|-t| = |t|` at the `JsNum` level. -/
theorem absJs_negJs (t : JsNum) : absJs (negJs t) = absJs t := by
  cases t <;> simp [absJs, negJs]

/-- The regularized incomplete beta returns exactly 1 whenever the
clamped argument is exactly 1, for every `a`, `b`. -/
theorem regIncompleteBeta_clamp_one (a b x : JsNum)
    (h : clampJs x (finite 0) (finite 1) = finite 1) :
    regIncompleteBeta a b x = finite 1 := by
  unfold regIncompleteBeta
  rw [h]
  norm_num [eqJs_finite]

/-- The regularized incomplete beta returns exactly 0 whenever the
clamped argument is exactly 0, for every `a`, `b`. -/
theorem regIncompleteBeta_clamp_zero (a b x : JsNum)
    (h : clampJs x (finite 0) (finite 1) = finite 0) :
    regIncompleteBeta a b x = finite 0 := by
  unfold regIncompleteBeta
  rw [h]
  norm_num [eqJs_finite]

/-- Clamping a finite `v ≤ 0` to `[0, 1]` gives exactly `0`. -/
theorem clampJs_finite_le_zero {v : ℝ} (h : v ≤ 0) :
    clampJs (finite v) (finite 0) (finite 1) = finite 0 := by
  rw [clampJs, minJs_finite, min_eq_right (h.trans zero_le_one), maxJs_finite,
    max_eq_left h]

/-- Clamping a finite `v ≥ 1` to `[0, 1]` gives exactly `1`. -/
theorem clampJs_finite_ge_one {v : ℝ} (h : 1 ≤ v) :
    clampJs (finite v) (finite 0) (finite 1) = finite 1 := by
  rw [clampJs, minJs_finite, min_eq_left h, maxJs_finite, max_eq_right zero_le_one]

/-- Clamping `-Infinity` to `[0, 1]` gives exactly `0`. -/
theorem clampJs_ninf01 : clampJs ninf (finite 0) (finite 1) = finite 0 := rfl

/-- Clamping `Infinity` to `[0, 1]` gives exactly `1`. -/
theorem clampJs_inf01 : clampJs inf (finite 0) (finite 1) = finite 1 := by
  rw [clampJs, show minJs (finite 1) inf = finite 1 from rfl, maxJs_finite,
    max_eq_right zero_le_one]

/-- C7: `regIncompleteBeta(a, b, x)` first clamps `x` to `[0, 1]` and, for
every `a` and `b`, returns exactly 0 when the clamped `x` is 0 and
exactly 1 when the clamped `x` is 1 — in particular for every finite
`x ≤ 0` or `x ≥ 1` and for the two infinities. -/
theorem regIncompleteBeta_boundary (a b x : JsNum) :
    (clampJs x (finite 0) (finite 1) = finite 0 → regIncompleteBeta a b x = finite 0)
  ∧ (clampJs x (finite 0) (finite 1) = finite 1 → regIncompleteBeta a b x = finite 1)
  ∧ (∀ v : ℝ, v ≤ 0 → regIncompleteBeta a b (finite v) = finite 0)
  ∧ (∀ v : ℝ, 1 ≤ v → regIncompleteBeta a b (finite v) = finite 1)
  ∧ regIncompleteBeta a b ninf = finite 0
  ∧ regIncompleteBeta a b inf = finite 1 := by
  refine ⟨regIncompleteBeta_clamp_zero a b x, regIncompleteBeta_clamp_one a b x,
    ?_, ?_, ?_, ?_⟩
  · intro v hv
    exact regIncompleteBeta_clamp_zero _ _ _ (clampJs_finite_le_zero hv)
  · intro v hv
    exact regIncompleteBeta_clamp_one _ _ _ (clampJs_finite_ge_one hv)
  · exact regIncompleteBeta_clamp_zero _ _ _ clampJs_ninf01
  · exact regIncompleteBeta_clamp_one _ _ _ clampJs_inf01

/-- Witness for C7 at concrete inputs: `a = 2`, `b = 1/2`, `x = -3` and
`x = 7`. -/
theorem regIncompleteBeta_boundary_witness :
    regIncompleteBeta (finite 2) (finite (1/2)) (finite (-3)) = finite 0
  ∧ regIncompleteBeta (finite 2) (finite (1/2)) (finite 7) = finite 1 :=
  ⟨(regIncompleteBeta_boundary (finite 2) (finite (1/2)) (finite (-3))).2.2.1
      (-3) (by norm_num),
   (regIncompleteBeta_boundary (finite 2) (finite (1/2)) (finite 7)).2.2.2.1
      7 (by norm_num)⟩

/-- C4: for every finite `df > 0`, with `t = 0` the CDF argument
`df/(df + t²)` is exactly 1, the regularized incomplete beta at that
argument is exactly 1, `studentTCdf(0, df)` is exactly `0.5`, and the
clamped two-sided p-value is exactly 1. -/
theorem pTwoSided_zero_eq_one (v : ℝ) (h : 0 < v) :
    divJs (finite v) (addJs (finite v) (mulJs (finite 0) (finite 0))) = finite 1
  ∧ regIncompleteBeta (divJs (finite v) (finite 2)) (finite (1/2)) (finite 1) = finite 1
  ∧ studentTCdf (finite 0) (finite v) = finite (1/2)
  ∧ pTwoSidedFromT (finite 0) (finite v) = finite 1 := by
  have hx : divJs (finite v) (addJs (finite v) (mulJs (finite 0) (finite 0)))
      = finite 1 := by
    rw [mulJs_finite, addJs_finite]
    norm_num [h.ne', div_self h.ne']
  have hbeta : regIncompleteBeta (divJs (finite v) (finite 2)) (finite (1/2))
      (finite 1) = finite 1 :=
    regIncompleteBeta_clamp_one _ _ _ (clampJs_finite_ge_one le_rfl)
  have hcdf : studentTCdf (finite 0) (finite v) = finite (1/2) := by
    simp only [studentTCdf]
    rw [hx, hbeta]
    norm_num [geJs_finite]
  refine ⟨hx, hbeta, hcdf, ?_⟩
  simp only [pTwoSidedFromT, absJs_finite, abs_zero, hcdf, subJs_finite, mulJs_finite]
  rw [show (2 : ℝ) * (1 - 1/2) = 1 by norm_num]
  exact clampJs_finite_ge_one le_rfl

/-- Witness for C4 at `df = 5`. -/
theorem pTwoSided_zero_eq_one_witness :
    pTwoSidedFromT (finite 0) (finite 5) = finite 1 :=
  (pTwoSided_zero_eq_one 5 (by norm_num)).2.2.2

/-- C5: the two-sided p-value is symmetric in the sign of the statistic:
`pTwoSided(t, df) = pTwoSided(-t, df)` for all `t` and `df`. -/
theorem pTwoSided_symm_neg (t df : JsNum) :
    pTwoSidedFromT t df = pTwoSidedFromT (negJs t) df := by
  unfold pTwoSidedFromT
  rw [absJs_negJs]

/-- The loop of `betacf` never iterates more often than its fuel. -/
theorem betacfLoop_count_le (a b x : JsNum) :
    ∀ fuel m s, (betacfLoop a b x fuel m s).2 ≤ fuel := by
  intro fuel
  induction fuel with
  | zero => intro m s; simp [betacfLoop]
  | succ n ih =>
      intro m s
      rw [betacfLoop]
      by_cases hb : (betacfStep a b x m s).2
      · simp only [hb, if_true]
        exact Nat.succ_le_succ (Nat.zero_le n)
      · simp only [hb, Bool.false_eq_true, if_false]
        exact Nat.succ_le_succ (ih (m + 1) _)

/-- C9: `betacf` performs at most 200 loop iterations on every input, and
whenever the very first iteration's multiplier `del` is within `3e-12` of
1, it stops after that single iteration. -/
theorem betacf_bounded_iterations (a b x : JsNum) :
    betacfIters a b x ≤ 200
  ∧ ((betacfStep a b x 1 (betacfInit a b x)).2 = true → betacfIters a b x = 1) := by
  constructor
  · exact betacfLoop_count_le a b x 200 1 _
  · intro hb
    unfold betacfIters
    rw [show (200 : ℕ) = 199 + 1 from rfl, betacfLoop]
    simp [hb]

set_option maxRecDepth 100000 in
/-- Witness for C9: at `a = b = 1`, `x = 0` the first iteration already
satisfies the tolerance, so exactly one iteration runs (in particular at
most 200). -/
theorem betacf_bounded_iterations_witness :
    betacfIters (finite 1) (finite 1) (finite 0) ≤ 200
  ∧ betacfIters (finite 1) (finite 1) (finite 0) = 1 :=
  ⟨(betacf_bounded_iterations (finite 1) (finite 1) (finite 0)).1,
   (betacf_bounded_iterations (finite 1) (finite 1) (finite 0)).2 (by
     norm_num [betacfStep, betacfInit, fpminJ, epsJ, ltJs_finite,
       decide_eq_true_eq])⟩

/-- C2: each analysis branch signals `InsufficientData` for undersized
filtered input (paired and one-sample: `n < 3`; Welch: either group
`n < 2`; correlation: `n < 4`) instead of running the statistical
procedure. -/
theorem insufficient_data_gate :
    (∀ (nameA nameB : String) (a b : List JsNum), a.length < 3 →
        outputPaired nameA nameB a b = .error .insufficientData)
  ∧ (∀ (vec : List JsNum) (mu : JsNum), vec.length < 3 →
        outputOneSample vec mu = .error .insufficientData)
  ∧ (∀ (gVar gA gB : String) (a b : List JsNum),
        ¬(gVar = "" ∨ gA = "" ∨ gB = "" ∨ gA = gB) →
        (a.length < 2 ∨ b.length < 2) →
        outputIndependent gVar gA gB a b = .error .insufficientData)
  ∧ (∀ pts : List (JsNum × JsNum), pts.length < 4 →
        outputCorrelation pts = .error .insufficientData) := by
  refine ⟨?_, ?_, ?_, ?_⟩
  · intro nameA nameB a b h
    simp [outputPaired, h]
  · intro vec mu h
    simp [outputOneSample, h]
  · intro gVar gA gB a b hg h
    simp [outputIndependent, hg, h]
  · intro pts h
    simp [outputCorrelation, h]

/-- Witness for C2: undersized concrete inputs for each branch. -/
theorem insufficient_data_gate_witness :
    outputPaired ("A") ("B") [finite 1, finite 2] [finite 1, finite 2]
      = .error .insufficientData
  ∧ outputOneSample [finite 1] (finite 0) = .error .insufficientData
  ∧ outputIndependent ("g") ("x") ("y") [finite 1] [finite 1, finite 2]
      = .error .insufficientData
  ∧ outputCorrelation [(finite 1, finite 2)] = .error .insufficientData :=
  ⟨insufficient_data_gate.1 ("A") ("B") _ _ (by decide),
   insufficient_data_gate.2.1 _ _ (by decide),
   insufficient_data_gate.2.2.1 ("g") ("x") ("y") _ _ (by decide) (Or.inl (by decide)),
   insufficient_data_gate.2.2.2 _ (by decide)⟩

/-- C3 (amended): the two-sided p-value carried by each of the four test
procedures is either a finite number of `[0, 1]` or `NaN` (the latter in
degenerate cases such as a zero-variance sample). -/
theorem p_value_unit_or_nan :
    (∀ t df : JsNum, inUnitJs (pTwoSidedFromT t df) ∨ pTwoSidedFromT t df = nan)
  ∧ (∀ a b : List JsNum,
      inUnitJs (pairedTTest a b).p ∨ (pairedTTest a b).p = nan)
  ∧ (∀ (arr : List JsNum) (mu : JsNum),
      inUnitJs (oneSampleT arr mu).p ∨ (oneSampleT arr mu).p = nan)
  ∧ (∀ a b : List JsNum,
      inUnitJs (welchTTest a b).p ∨ (welchTTest a b).p = nan)
  ∧ (∀ x y : List JsNum,
      inUnitJs (pearsonCorrelation x y).p ∨ (pearsonCorrelation x y).p = nan) :=
  ⟨fun _ _ => clamp01_cases _, fun _ _ => clamp01_cases _, fun _ _ => clamp01_cases _,
   fun _ _ => clamp01_cases _, fun _ _ => clamp01_cases _⟩

set_option maxRecDepth 100000 in
/-- Counterexample to C3 as stated: the one-sample t-test on the
constant sample `[5,5,5,5,5]` against `μ0 = 5` (which passes the `n ≥ 3`
gate) carries the p-value `NaN`, which does not lie in `[0, 1]`. -/
theorem p_value_nan_on_constant_sample :
    (oneSampleT [finite 5, finite 5, finite 5, finite 5, finite 5] (finite 5)).p = nan
  ∧ ¬ inUnitJs
      ((oneSampleT [finite 5, finite 5, finite 5, finite 5, finite 5] (finite 5)).p) := by
  have ht : (oneSampleT [finite 5, finite 5, finite 5, finite 5, finite 5]
      (finite 5)).t = nan := by
    norm_num [oneSampleT, summarize, meanJs, sumJs, varNumJs, varianceJs, sdJs,
      sqJs, List.foldl, Real.sqrt_zero, Real.sqrt_eq_zero', decide_eq_true_eq]
  have hp : (oneSampleT [finite 5, finite 5, finite 5, finite 5, finite 5]
        (finite 5)).p
      = pTwoSidedFromT
          (oneSampleT [finite 5, finite 5, finite 5, finite 5, finite 5] (finite 5)).t
          (oneSampleT [finite 5, finite 5, finite 5, finite 5, finite 5] (finite 5)).df :=
    rfl
  rw [hp, ht, pTwoSided_nan]
  exact ⟨rfl, fun hco => hco⟩

/-! ### Evaluation of the fixed-point formatter -/

/-- Source `jsRoundNat v d = n` once `n` is pinned down by the two floor
inequalities. -/
theorem jsRoundNat_eq {v : ℝ} {d n : ℕ} (h1 : (n : ℝ) ≤ v * 10 ^ d + 1/2)
    (h2 : v * 10 ^ d + 1/2 < n + 1) : jsRoundNat v d = n := by
  unfold jsRoundNat
  rw [show ⌊v * 10 ^ d + 1/2⌋ = (n : ℤ) from
    Int.floor_eq_iff.mpr ⟨by exact_mod_cast h1, by push_cast; exact h2⟩]
  simp

/-- Source `toFixed` of a nonnegative finite value, reduced to the rounded
integer form. -/
theorem toFixedR_eq {v : ℝ} {d n : ℕ} (h0 : 0 ≤ v)
    (h1 : (n : ℝ) ≤ v * 10 ^ d + 1/2) (h2 : v * 10 ^ d + 1/2 < n + 1) :
    toFixedR v d = natFixedString n d := by
  rw [toFixedR, if_neg (not_lt.mpr h0), jsRoundNat_eq h1 h2]

/-- C8: p-value formatting: a finite `p < 0.001` renders as `"< .001"`,
any other finite `p` renders with 3 decimals and the leading zero
stripped, non-finite `p` renders as `"NA"`; in particular `0.0009`,
`0.042` and `0.5` render as `"< .001"`, `".042"` and `".500"`. -/
theorem fmtP_spec :
    (∀ v : ℝ, v < 1/1000 → fmtP (finite v) = "< .001")
  ∧ (∀ v : ℝ, 1/1000 ≤ v → fmtP (finite v) = stripLeadingZero (toFixedR v 3))
  ∧ fmtP nan = "NA" ∧ fmtP inf = "NA" ∧ fmtP ninf = "NA"
  ∧ fmtP (finite (9/10000)) = "< .001"
  ∧ fmtP (finite (42/1000)) = ".042"
  ∧ fmtP (finite (1/2)) = ".500" := by
  have h1 : ∀ v : ℝ, v < 1/1000 → fmtP (finite v) = "< .001" := by
    intro v hv
    have hlt : ltJs (finite v) (finite (1/1000)) = true := by
      rw [ltJs_finite]; exact decide_eq_true hv
    unfold fmtP
    rw [if_pos (show (finite v).isFinite = true from rfl), if_pos hlt]
  have h2 : ∀ v : ℝ, 1/1000 ≤ v → fmtP (finite v) = stripLeadingZero (toFixedR v 3) := by
    intro v hv
    have hlt : ¬(ltJs (finite v) (finite (1/1000)) = true) := by
      rw [ltJs_finite, decide_eq_true_eq]; exact not_lt.mpr hv
    unfold fmtP
    rw [if_pos (show (finite v).isFinite = true from rfl), if_neg hlt]
    rfl
  refine ⟨h1, h2, rfl, rfl, rfl, h1 _ (by norm_num), ?_, ?_⟩
  · rw [h2 _ (by norm_num),
      toFixedR_eq (by norm_num) (n := 42) (by norm_num) (by norm_num)]
    rfl
  · rw [h2 _ (by norm_num),
      toFixedR_eq (by norm_num) (n := 500) (by norm_num) (by norm_num)]
    rfl

/-- Witness for C8 at `p = 0` and `p = 1`. -/
theorem fmtP_spec_witness :
    fmtP (finite 0) = "< .001"
  ∧ fmtP (finite 1) = stripLeadingZero (toFixedR 1 3) :=
  ⟨fmtP_spec.1 0 (by norm_num), fmtP_spec.2.1 1 (by norm_num)⟩

/-! ### Projections of the test records -/

theorem summarize_n (l : List JsNum) : (summarize l).n = l.length := rfl

theorem summarize_mean (l : List JsNum) : (summarize l).mean = meanJs l := rfl

theorem summarize_sd (l : List JsNum) : (summarize l).sd = sdJs l := rfl

theorem pairedTTest_t (a b : List JsNum) :
    (pairedTTest a b).t = divJs (meanJs (pairedDiffs a b))
      (divJs (sdJs (pairedDiffs a b))
        (sqrtJs (finite ((pairedDiffs a b).length : ℝ)))) := rfl

theorem pairedTTest_d (a b : List JsNum) :
    (pairedTTest a b).d
      = divJs (meanJs (pairedDiffs a b)) (sdJs (pairedDiffs a b)) := rfl

theorem pairedTTest_df (a b : List JsNum) :
    (pairedTTest a b).df = finite (((pairedDiffs a b).length : ℝ) - 1) := rfl

theorem pairedTTest_p (a b : List JsNum) :
    (pairedTTest a b).p
      = pTwoSidedFromT (pairedTTest a b).t (pairedTTest a b).df := rfl

/-- Concatenation of strings is associative. -/
theorem strAssoc (a b c : String) : a ++ b ++ c = a ++ (b ++ c) := by
  cases a with
  | mk la =>
      cases b with
      | mk lb =>
          cases c with
          | mk lc => exact congrArg String.mk (List.append_assoc la lb lc)

/-- C1 (amended): the `fmt` helper renders every non-finite value as the
literal `"NA"` and every finite value with `toFixed(2)`, and the APA
sentence applies it to the means and SDs; but the statistic `t` and the
effect size `d` are rendered with `toFixed(2)` directly, which prints
`"NaN"` / `"Infinity"` / `"-Infinity"` on non-finite values, so a
sentence whose `t` and `d` are `NaN` contains `"NaN"` rather than
`"NA"`. -/
theorem fmt_na_but_statistic_raw :
    (∀ x : JsNum, x.isFinite = false → fmt x = "NA")
  ∧ (∀ v : ℝ, fmt (finite v) = toFixedR v 2)
  ∧ toFixedJs nan 2 = "NaN"
  ∧ toFixedJs inf 2 = "Infinity"
  ∧ toFixedJs ninf 2 = "-Infinity"
  ∧ (∀ (nameA nameB : String) (sa sb : Summary) (res : PairedRes),
      res.t = nan → res.d = nan →
      ∃ s1 s2 s3 : String,
        apaPaired nameA nameB sa sb res = s1 ++ "NaN" ++ s2 ++ "NaN" ++ s3) := by
  refine ⟨?_, fun v => rfl, rfl, rfl, rfl, ?_⟩
  · intro x hx
    unfold fmt
    rw [hx]
    rfl
  · intro nameA nameB sa sb res hT hD
    refine ⟨"A paired-samples t-test compared " ++ nameA ++ " (M = " ++ fmt sa.mean ++
      ", SD = " ++ fmt sa.sd ++ ") and " ++ nameB ++ " (M = " ++ fmt sb.mean ++
      ", SD = " ++ fmt sb.sd ++ "). The analysis yielded t(" ++ jsToStr res.df ++
      ") = ", ", p = " ++ fmtP res.p ++ ", d = ", ".", ?_⟩
    rw [apaPaired, hT, hD]
    simp only [toFixedJs, strAssoc]

/-- Witness for C1's amended statement at `x = NaN` and `v = 3/2`. -/
theorem fmt_na_but_statistic_raw_witness :
    fmt nan = "NA" ∧ fmt (finite (3/2)) = toFixedR (3/2) 2 :=
  ⟨fmt_na_but_statistic_raw.1 nan rfl, fmt_na_but_statistic_raw.2.1 (3/2)⟩

set_option maxRecDepth 100000 in
/-- Counterexample to C1 as stated: on the paired input `a = [1,2,3]`,
`b = [2,3,4]` (which passes the `n ≥ 3` gate) the statistic and effect
size are `-Infinity`, yet the produced APA sentence prints the literal
`"-Infinity"` for the `t` and `d` fields instead of `"NA"`. -/
theorem apa_prints_infinity_not_na :
    (pairedTTest [finite 1, finite 2, finite 3] [finite 2, finite 3, finite 4]).t = ninf
  ∧ outputPaired ("A") ("B") [finite 1, finite 2, finite 3] [finite 2, finite 3, finite 4]
      = .ok ("A paired-samples t-test compared A (M = 2.00, SD = 1.00) and B (M = 3.00, SD = 1.00). The analysis yielded t(2) = -Infinity, p = < .001, d = -Infinity.") := by
  have hdiffs : pairedDiffs [finite 1, finite 2, finite 3] [finite 2, finite 3, finite 4]
      = [finite (-1), finite (-1), finite (-1)] := by
    norm_num [pairedDiffs]
  have hmeanD : meanJs [finite (-1), finite (-1), finite (-1)] = finite (-1) := by
    norm_num [meanJs, sumJs, List.foldl]
  have hvarD : varianceJs [finite (-1), finite (-1), finite (-1)] = finite 0 := by
    norm_num [varianceJs, varNumJs, hmeanD, List.foldl, sqJs]
  have hsdD : sdJs [finite (-1), finite (-1), finite (-1)] = finite 0 := by
    rw [sdJs, hvarD]
    norm_num [Real.sqrt_zero]
  have ht : (pairedTTest [finite 1, finite 2, finite 3]
      [finite 2, finite 3, finite 4]).t = ninf := by
    rw [pairedTTest_t, hdiffs, hmeanD, hsdD]
    norm_num [Real.sqrt_eq_zero']
  have hd : (pairedTTest [finite 1, finite 2, finite 3]
      [finite 2, finite 3, finite 4]).d = ninf := by
    rw [pairedTTest_d, hdiffs, hmeanD, hsdD]
    norm_num
  have hdf : (pairedTTest [finite 1, finite 2, finite 3]
      [finite 2, finite 3, finite 4]).df = finite 2 := by
    rw [pairedTTest_df, hdiffs]
    norm_num
  have hp2 : pTwoSidedFromT ninf (finite 2) = finite 0 := by
    norm_num [pTwoSidedFromT, studentTCdf, regIncompleteBeta, absJs, mulJs, addJs,
      divJs, subJs, negJs, geJs, clampJs, minJs, maxJs, eqJs, min_def, max_def,
      decide_eq_true_eq]
  have hp : (pairedTTest [finite 1, finite 2, finite 3]
      [finite 2, finite 3, finite 4]).p = finite 0 := by
    rw [pairedTTest_p, ht, hdf, hp2]
  have hmeanA : meanJs [finite 1, finite 2, finite 3] = finite 2 := by
    norm_num [meanJs, sumJs, List.foldl]
  have hvarA : varianceJs [finite 1, finite 2, finite 3] = finite 1 := by
    norm_num [varianceJs, varNumJs, hmeanA, List.foldl, sqJs]
  have hsdA : sdJs [finite 1, finite 2, finite 3] = finite 1 := by
    rw [sdJs, hvarA]
    norm_num [Real.sqrt_one]
  have hmeanB : meanJs [finite 2, finite 3, finite 4] = finite 3 := by
    norm_num [meanJs, sumJs, List.foldl]
  have hvarB : varianceJs [finite 2, finite 3, finite 4] = finite 1 := by
    norm_num [varianceJs, varNumJs, hmeanB, List.foldl, sqJs]
  have hsdB : sdJs [finite 2, finite 3, finite 4] = finite 1 := by
    rw [sdJs, hvarB]
    norm_num [Real.sqrt_one]
  have hfmt1 : fmt (finite 1) = "1.00" := by
    rw [show fmt (finite 1) = toFixedR 1 2 from rfl,
      toFixedR_eq (by norm_num) (n := 100) (by norm_num) (by norm_num)]
    rfl
  have hfmt2 : fmt (finite 2) = "2.00" := by
    rw [show fmt (finite 2) = toFixedR 2 2 from rfl,
      toFixedR_eq (by norm_num) (n := 200) (by norm_num) (by norm_num)]
    rfl
  have hfmt3 : fmt (finite 3) = "3.00" := by
    rw [show fmt (finite 3) = toFixedR 3 2 from rfl,
      toFixedR_eq (by norm_num) (n := 300) (by norm_num) (by norm_num)]
    rfl
  have hjs2 : jsToStr (finite 2) = "2" := by
    have hfl : ⌊(2 : ℝ)⌋ = 2 := by norm_num
    show (if (⌊(2 : ℝ)⌋ : ℝ) = 2 then toString ⌊(2 : ℝ)⌋ else "NONINTEGRAL") = "2"
    rw [if_pos (by rw [hfl]; norm_num), hfl]
    rfl
  have hfp : fmtP (finite 0) = "< .001" := by
    have hlt : ltJs (finite 0) (finite (1/1000)) = true := by
      rw [ltJs_finite]
      exact decide_eq_true (by norm_num)
    unfold fmtP
    rw [if_pos (show (finite (0:ℝ)).isFinite = true from rfl), if_pos hlt]
  refine ⟨ht, ?_⟩
  rw [outputPaired, if_neg (by norm_num)]
  rw [apaPaired, summarize_mean, summarize_mean, summarize_sd, summarize_sd,
    hmeanA, hsdA, hmeanB, hsdB, ht, hd, hdf, hp, hfmt1, hfmt2, hfmt3, hjs2, hfp]
  rfl

/-! ### Bridging the `JsNum` pipeline with the real-valued shadow on
finite input vectors -/

theorem foldl_addJs_map (l : List ℝ) :
    ∀ acc : ℝ, (l.map finite).foldl addJs (finite acc)
      = finite (l.foldl (· + ·) acc) := by
  induction l with
  | nil => intro acc; rfl
  | cons x xs ih =>
      intro acc
      simp only [List.map_cons, List.foldl_cons, addJs_finite]
      exact ih (acc + x)

theorem sumJs_map (l : List ℝ) : sumJs (l.map finite) = finite (sumR l) :=
  foldl_addJs_map l 0

theorem meanJs_map {l : List ℝ} (h : l ≠ []) :
    meanJs (l.map finite) = finite (meanR l) := by
  rw [meanJs, sumJs_map, List.length_map,
    divJs_finite _ (Nat.cast_ne_zero.mpr (fun hl => h (List.length_eq_zero.mp hl)))]
  rfl

theorem foldl_sq_map (c : ℝ) (l : List ℝ) :
    ∀ acc : ℝ,
      (l.map finite).foldl (fun acc v => addJs acc (sqJs (subJs v (finite c))))
          (finite acc)
        = finite (l.foldl (fun acc v => acc + (v - c) ^ 2) acc) := by
  induction l with
  | nil => intro acc; rfl
  | cons x xs ih =>
      intro acc
      simp only [List.map_cons, List.foldl_cons, subJs_finite, sqJs, mulJs_finite]
      rw [show (x - c) * (x - c) = (x - c) ^ 2 from (pow_two _).symm]
      exact ih (acc + (x - c) ^ 2)

theorem varNumJs_map {l : List ℝ} (h : l ≠ []) :
    varNumJs (l.map finite) = finite (varNumR l) := by
  rw [varNumJs, meanJs_map h]
  exact foldl_sq_map (meanR l) l 0

theorem varianceJs_map {l : List ℝ} (h : 2 ≤ l.length) :
    varianceJs (l.map finite) = finite (varianceR l) := by
  have hne : l ≠ [] := by
    intro e
    rw [e] at h
    simp at h
  have hlen : (2 : ℝ) ≤ (l.length : ℝ) := by exact_mod_cast h
  rw [varianceJs, varNumJs_map hne, List.length_map,
    divJs_finite _ (show ((l.length : ℝ) - 1) ≠ 0 by linarith)]
  rfl

theorem foldl_sq_nonneg (c : ℝ) (l : List ℝ) :
    ∀ acc : ℝ, 0 ≤ acc → 0 ≤ l.foldl (fun acc v => acc + (v - c) ^ 2) acc := by
  induction l with
  | nil => intro acc h; exact h
  | cons x xs ih =>
      intro acc h
      exact ih _ (add_nonneg h (sq_nonneg _))

theorem varNumR_nonneg (l : List ℝ) : 0 ≤ varNumR l :=
  foldl_sq_nonneg (meanR l) l 0 le_rfl

theorem varianceR_nonneg {l : List ℝ} (h : 2 ≤ l.length) : 0 ≤ varianceR l := by
  have hlen : (2 : ℝ) ≤ (l.length : ℝ) := by exact_mod_cast h
  exact div_nonneg (varNumR_nonneg l) (by linarith)

theorem sdJs_map {l : List ℝ} (h : 2 ≤ l.length) :
    sdJs (l.map finite) = finite (sdR l) := by
  rw [sdJs, varianceJs_map h, sqrtJs_finite (varianceR_nonneg h)]
  rfl

theorem welchTTest_t (a b : List JsNum) :
    (welchTTest a b).t = divJs (subJs (meanJs a) (meanJs b))
      (sqrtJs (addJs (divJs (sqJs (sdJs a)) (finite (a.length : ℝ)))
        (divJs (sqJs (sdJs b)) (finite (b.length : ℝ))))) := rfl

theorem welchTTest_df (a b : List JsNum) :
    (welchTTest a b).df = divJs
      (sqJs (addJs (divJs (sqJs (sdJs a)) (finite (a.length : ℝ)))
        (divJs (sqJs (sdJs b)) (finite (b.length : ℝ)))))
      (addJs
        (divJs (sqJs (sqJs (sdJs a)))
          (mulJs (sqJs (finite (a.length : ℝ)))
            (subJs (finite (a.length : ℝ)) (finite 1))))
        (divJs (sqJs (sqJs (sdJs b)))
          (mulJs (sqJs (finite (b.length : ℝ)))
            (subJs (finite (b.length : ℝ)) (finite 1))))) := rfl

theorem welchTTest_g (a b : List JsNum) :
    (welchTTest a b).g = mulJs
      (divJs (subJs (meanJs a) (meanJs b))
        (sqrtJs (divJs
          (addJs
            (mulJs (subJs (finite (a.length : ℝ)) (finite 1)) (sqJs (sdJs a)))
            (mulJs (subJs (finite (b.length : ℝ)) (finite 1)) (sqJs (sdJs b))))
          (subJs (addJs (finite (a.length : ℝ)) (finite (b.length : ℝ)))
            (finite 2)))))
      (subJs (finite 1) (divJs (finite 3)
        (subJs
          (mulJs (finite 4) (addJs (finite (a.length : ℝ)) (finite (b.length : ℝ))))
          (finite 9)))) := rfl

/-- C6: on two finite vectors of length at least 2 (with not both sample
variances zero, so that every formula denominator is nonzero), the Welch
test computes the Welch–Satterthwaite degrees of freedom, the Welch
statistic, and Hedges' `g` as pooled Cohen's `d` times the correction
factor `J = 1 - 3/(4(na+nb) - 9)`. -/
theorem welch_formulas (a b : List ℝ) (ha : 2 ≤ a.length) (hb : 2 ≤ b.length)
    (hnd : varianceR a ≠ 0 ∨ varianceR b ≠ 0) :
    (welchTTest (a.map finite) (b.map finite)).df
      = finite ((varianceR a / (a.length : ℝ) + varianceR b / (b.length : ℝ)) ^ 2
          / (varianceR a ^ 2 / ((a.length : ℝ) ^ 2 * ((a.length : ℝ) - 1))
            + varianceR b ^ 2 / ((b.length : ℝ) ^ 2 * ((b.length : ℝ) - 1))))
  ∧ (welchTTest (a.map finite) (b.map finite)).t
      = finite ((meanR a - meanR b)
          / Real.sqrt (varianceR a / (a.length : ℝ) + varianceR b / (b.length : ℝ)))
  ∧ (welchTTest (a.map finite) (b.map finite)).g
      = finite ((meanR a - meanR b)
          / Real.sqrt ((((a.length : ℝ) - 1) * varianceR a
              + ((b.length : ℝ) - 1) * varianceR b)
            / ((a.length : ℝ) + (b.length : ℝ) - 2))
          * (1 - 3 / (4 * ((a.length : ℝ) + (b.length : ℝ)) - 9))) := by
  have hnea : a ≠ [] := by
    intro e; rw [e] at ha; simp at ha
  have hneb : b ≠ [] := by
    intro e; rw [e] at hb; simp at hb
  have hna : (2 : ℝ) ≤ (a.length : ℝ) := by exact_mod_cast ha
  have hnb : (2 : ℝ) ≤ (b.length : ℝ) := by exact_mod_cast hb
  have hna0 : (a.length : ℝ) ≠ 0 := by linarith
  have hnb0 : (b.length : ℝ) ≠ 0 := by linarith
  have hna1 : (0 : ℝ) < (a.length : ℝ) - 1 := by linarith
  have hnb1 : (0 : ℝ) < (b.length : ℝ) - 1 := by linarith
  have hva0 : 0 ≤ varianceR a := varianceR_nonneg ha
  have hvb0 : 0 ≤ varianceR b := varianceR_nonneg hb
  have hsqa : sdR a * sdR a = varianceR a := Real.mul_self_sqrt hva0
  have hsqb : sdR b * sdR b = varianceR b := Real.mul_self_sqrt hvb0
  have hsum_pos :
      0 < varianceR a / (a.length : ℝ) + varianceR b / (b.length : ℝ) := by
    rcases hnd with h | h
    · have hva : 0 < varianceR a := lt_of_le_of_ne hva0 (Ne.symm h)
      have h1 : 0 < varianceR a / (a.length : ℝ) := div_pos hva (by linarith)
      have h2 : 0 ≤ varianceR b / (b.length : ℝ) := div_nonneg hvb0 (by linarith)
      linarith
    · have hvb : 0 < varianceR b := lt_of_le_of_ne hvb0 (Ne.symm h)
      have h1 : 0 < varianceR b / (b.length : ℝ) := div_pos hvb (by linarith)
      have h2 : 0 ≤ varianceR a / (a.length : ℝ) := div_nonneg hva0 (by linarith)
      linarith
  have hden_pos :
      0 < varianceR a ^ 2 / ((a.length : ℝ) ^ 2 * ((a.length : ℝ) - 1))
        + varianceR b ^ 2 / ((b.length : ℝ) ^ 2 * ((b.length : ℝ) - 1)) := by
    have hca : (0 : ℝ) < (a.length : ℝ) ^ 2 * ((a.length : ℝ) - 1) :=
      mul_pos (pow_pos (by linarith) 2) hna1
    have hcb : (0 : ℝ) < (b.length : ℝ) ^ 2 * ((b.length : ℝ) - 1) :=
      mul_pos (pow_pos (by linarith) 2) hnb1
    rcases hnd with h | h
    · have h1 : 0 < varianceR a ^ 2 / ((a.length : ℝ) ^ 2 * ((a.length : ℝ) - 1)) :=
        div_pos (pow_pos (lt_of_le_of_ne hva0 (Ne.symm h)) 2) hca
      have h2 : 0 ≤ varianceR b ^ 2 / ((b.length : ℝ) ^ 2 * ((b.length : ℝ) - 1)) :=
        div_nonneg (sq_nonneg _) hcb.le
      linarith
    · have h1 : 0 < varianceR b ^ 2 / ((b.length : ℝ) ^ 2 * ((b.length : ℝ) - 1)) :=
        div_pos (pow_pos (lt_of_le_of_ne hvb0 (Ne.symm h)) 2) hcb
      have h2 : 0 ≤ varianceR a ^ 2 / ((a.length : ℝ) ^ 2 * ((a.length : ℝ) - 1)) :=
        div_nonneg (sq_nonneg _) hca.le
      linarith
  have hpool_pos :
      0 < (((a.length : ℝ) - 1) * varianceR a + ((b.length : ℝ) - 1) * varianceR b)
        / ((a.length : ℝ) + (b.length : ℝ) - 2) := by
    have hd2 : (0 : ℝ) < (a.length : ℝ) + (b.length : ℝ) - 2 := by linarith
    rcases hnd with h | h
    · have h1 : 0 < ((a.length : ℝ) - 1) * varianceR a :=
        mul_pos hna1 (lt_of_le_of_ne hva0 (Ne.symm h))
      have h2 : 0 ≤ ((b.length : ℝ) - 1) * varianceR b :=
        mul_nonneg hnb1.le hvb0
      exact div_pos (by linarith) hd2
    · have h1 : 0 < ((b.length : ℝ) - 1) * varianceR b :=
        mul_pos hnb1 (lt_of_le_of_ne hvb0 (Ne.symm h))
      have h2 : 0 ≤ ((a.length : ℝ) - 1) * varianceR a :=
        mul_nonneg hna1.le hva0
      exact div_pos (by linarith) hd2
  have hca : (0 : ℝ) < (a.length : ℝ) * (a.length : ℝ) * ((a.length : ℝ) - 1) :=
    mul_pos (mul_pos (by linarith) (by linarith)) hna1
  have hcb : (0 : ℝ) < (b.length : ℝ) * (b.length : ℝ) * ((b.length : ℝ) - 1) :=
    mul_pos (mul_pos (by linarith) (by linarith)) hnb1
  have hden' : 0 < varianceR a * varianceR a
        / ((a.length : ℝ) * (a.length : ℝ) * ((a.length : ℝ) - 1))
      + varianceR b * varianceR b
        / ((b.length : ℝ) * (b.length : ℝ) * ((b.length : ℝ) - 1)) := by
    rcases hnd with h | h
    · have hva : 0 < varianceR a := lt_of_le_of_ne hva0 (Ne.symm h)
      have h1 := div_pos (mul_pos hva hva) hca
      have h2 := div_nonneg (mul_self_nonneg (varianceR b)) hcb.le
      linarith
    · have hvb : 0 < varianceR b := lt_of_le_of_ne hvb0 (Ne.symm h)
      have h1 := div_pos (mul_pos hvb hvb) hcb
      have h2 := div_nonneg (mul_self_nonneg (varianceR a)) hca.le
      linarith
  refine ⟨?_, ?_, ?_⟩
  · rw [welchTTest_df, List.length_map, List.length_map, sdJs_map ha, sdJs_map hb]
    simp only [sqJs, mulJs_finite, subJs_finite, addJs_finite]
    rw [hsqa, hsqb]
    rw [divJs_finite _ hna0, divJs_finite _ hnb0, divJs_finite _ hca.ne',
      divJs_finite _ hcb.ne']
    simp only [addJs_finite, mulJs_finite]
    rw [divJs_finite _ hden'.ne']
    congr 1
    ring
  · rw [welchTTest_t, List.length_map, List.length_map, meanJs_map hnea,
      meanJs_map hneb, sdJs_map ha, sdJs_map hb]
    simp only [sqJs, mulJs_finite, subJs_finite]
    rw [hsqa, hsqb, divJs_finite _ hna0, divJs_finite _ hnb0, addJs_finite,
      sqrtJs_finite hsum_pos.le,
      divJs_finite _ (Real.sqrt_ne_zero'.mpr hsum_pos)]
  · rw [welchTTest_g, List.length_map, List.length_map, meanJs_map hnea,
      meanJs_map hneb, sdJs_map ha, sdJs_map hb]
    simp only [sqJs, mulJs_finite, subJs_finite, addJs_finite]
    rw [hsqa, hsqb]
    rw [divJs_finite _ (show (a.length : ℝ) + (b.length : ℝ) - 2 ≠ 0 from by linarith),
      sqrtJs_finite hpool_pos.le,
      divJs_finite _ (Real.sqrt_ne_zero'.mpr hpool_pos),
      divJs_finite _ (show 4 * ((a.length : ℝ) + (b.length : ℝ)) - 9 ≠ 0 from by
        linarith)]
    simp only [subJs_finite, mulJs_finite]

/-- Witness for C6 at `a = [0, 2]`, `b = [0, 4]`. -/
theorem welch_formulas_witness :
    (welchTTest ([(0 : ℝ), 2].map finite) ([(0 : ℝ), 4].map finite)).t
      = finite ((meanR [(0 : ℝ), 2] - meanR [(0 : ℝ), 4])
          / Real.sqrt (varianceR [(0 : ℝ), 2] / ((2 : ℕ) : ℝ)
            + varianceR [(0 : ℝ), 4] / ((2 : ℕ) : ℝ))) :=
  (welch_formulas [(0 : ℝ), 2] [(0 : ℝ), 4] (by decide) (by decide)
    (Or.inl (by norm_num [varianceR, varNumR, meanR, sumR, List.foldl]))).2.1

/-! ### Swapping the arguments of the paired t-test -/

theorem pairedDiffs_map (a : List ℝ) :
    ∀ b : List ℝ, a.length = b.length →
      pairedDiffs (a.map finite) (b.map finite) = (diffsR a b).map finite := by
  induction a with
  | nil =>
      intro b h
      cases b with
      | nil => rfl
      | cons y ys => simp at h
  | cons x xs ih =>
      intro b h
      cases b with
      | nil => simp at h
      | cons y ys =>
          simp only [List.map_cons, pairedDiffs, diffsR, List.zipWith_cons_cons,
            subJs_finite]
          exact congrArg (finite (x - y) :: ·) (ih ys (by simpa using h))

theorem diffsR_swap (a : List ℝ) :
    ∀ b : List ℝ, diffsR b a = (diffsR a b).map (fun v => -v) := by
  induction a with
  | nil =>
      intro b
      simp [diffsR]
  | cons x xs ih =>
      intro b
      cases b with
      | nil => simp [diffsR]
      | cons y ys =>
          simp only [diffsR, List.zipWith_cons_cons, List.map_cons] at ih ⊢
          rw [show y - x = -(x - y) from (neg_sub x y).symm]
          exact congrArg (-(x - y) :: ·) (ih ys)

theorem foldl_add_shift (l : List ℝ) :
    ∀ acc : ℝ, l.foldl (· + ·) acc = acc + l.foldl (· + ·) 0 := by
  induction l with
  | nil => intro acc; simp
  | cons x xs ih =>
      intro acc
      simp only [List.foldl_cons]
      rw [ih (acc + x), ih (0 + x)]
      ring

theorem sumR_map_neg (l : List ℝ) : sumR (l.map (fun v => -v)) = -sumR l := by
  induction l with
  | nil => simp [sumR]
  | cons x xs ih =>
      simp only [List.map_cons, sumR, List.foldl_cons] at ih ⊢
      rw [foldl_add_shift _ (0 + -x), foldl_add_shift _ (0 + x), ih]
      ring

theorem meanR_map_neg (l : List ℝ) : meanR (l.map (fun v => -v)) = -meanR l := by
  rw [meanR, meanR, sumR_map_neg, List.length_map, neg_div]

theorem foldl_sq_neg (c : ℝ) (l : List ℝ) :
    ∀ acc : ℝ,
      (l.map (fun v => -v)).foldl (fun acc v => acc + (v - -c) ^ 2) acc
        = l.foldl (fun acc v => acc + (v - c) ^ 2) acc := by
  induction l with
  | nil => intro acc; rfl
  | cons x xs ih =>
      intro acc
      simp only [List.map_cons, List.foldl_cons]
      rw [show (-x - -c) ^ 2 = (x - c) ^ 2 from by ring]
      exact ih _

theorem varNumR_map_neg (l : List ℝ) :
    varNumR (l.map (fun v => -v)) = varNumR l := by
  rw [varNumR, varNumR, meanR_map_neg]
  exact foldl_sq_neg (meanR l) l 0

theorem varianceR_map_neg (l : List ℝ) :
    varianceR (l.map (fun v => -v)) = varianceR l := by
  rw [varianceR, varianceR, varNumR_map_neg, List.length_map]

theorem sdR_map_neg (l : List ℝ) : sdR (l.map (fun v => -v)) = sdR l := by
  rw [sdR, sdR, varianceR_map_neg]

/-- C10: for equal-length vectors with `n ≥ 2` and a nonzero standard
deviation of the differences, swapping the arguments of the paired
t-test negates the statistic and the effect size and preserves the
degrees of freedom. -/
theorem paired_swap_antisymm (a b : List ℝ) (hlen : a.length = b.length)
    (h2 : 2 ≤ a.length) (hsd : sdR (diffsR a b) ≠ 0) :
    (pairedTTest (b.map finite) (a.map finite)).t
        = negJs ((pairedTTest (a.map finite) (b.map finite)).t)
  ∧ (pairedTTest (b.map finite) (a.map finite)).d
        = negJs ((pairedTTest (a.map finite) (b.map finite)).d)
  ∧ (pairedTTest (b.map finite) (a.map finite)).df
        = (pairedTTest (a.map finite) (b.map finite)).df := by
  have hlenD : (diffsR a b).length = a.length := by
    rw [diffsR, List.length_zipWith, hlen, min_self]
  have hlenD2 : 2 ≤ (diffsR a b).length := by rw [hlenD]; exact h2
  have hneD : diffsR a b ≠ [] := by
    intro e
    rw [e] at hlenD2
    simp at hlenD2
  have hswapD : diffsR b a = (diffsR a b).map (fun v => -v) := diffsR_swap a b
  have hlenD' : (diffsR b a).length = a.length := by
    rw [hswapD, List.length_map, hlenD]
  have hlenD2' : 2 ≤ (diffsR b a).length := by rw [hlenD']; exact h2
  have hneD' : diffsR b a ≠ [] := by
    intro e
    rw [e] at hlenD2'
    simp at hlenD2'
  have hmean' : meanR (diffsR b a) = -meanR (diffsR a b) := by
    rw [hswapD, meanR_map_neg]
  have hsd' : sdR (diffsR b a) = sdR (diffsR a b) := by
    rw [hswapD, sdR_map_neg]
  have hn0 : (0 : ℝ) < (a.length : ℝ) := by
    have : (2 : ℝ) ≤ (a.length : ℝ) := by exact_mod_cast h2
    linarith
  have hrt0 : Real.sqrt (a.length : ℝ) ≠ 0 := Real.sqrt_ne_zero'.mpr hn0
  have hq0 : sdR (diffsR a b) / Real.sqrt (a.length : ℝ) ≠ 0 := div_ne_zero hsd hrt0
  refine ⟨?_, ?_, ?_⟩
  · rw [pairedTTest_t, pairedTTest_t, pairedDiffs_map a b hlen,
      pairedDiffs_map b a hlen.symm, List.length_map, List.length_map,
      meanJs_map hneD, meanJs_map hneD', sdJs_map hlenD2, sdJs_map hlenD2',
      hmean', hsd', hlenD, hlenD',
      sqrtJs_finite hn0.le, divJs_finite _ hrt0, divJs_finite _ hq0,
      divJs_finite _ hq0, negJs_finite, neg_div]
  · rw [pairedTTest_d, pairedTTest_d, pairedDiffs_map a b hlen,
      pairedDiffs_map b a hlen.symm, meanJs_map hneD, meanJs_map hneD',
      sdJs_map hlenD2, sdJs_map hlenD2', hmean', hsd',
      divJs_finite _ hsd, divJs_finite _ hsd, negJs_finite, neg_div]
  · rw [pairedTTest_df, pairedTTest_df, pairedDiffs_map a b hlen,
      pairedDiffs_map b a hlen.symm, List.length_map, List.length_map,
      hlenD, hlenD']

/-- Witness for C10 at `a = [1, 1]`, `b = [2, 3]`. -/
theorem paired_swap_antisymm_witness :
    (pairedTTest ([(2 : ℝ), 3].map finite) ([(1 : ℝ), 1].map finite)).t
      = negJs ((pairedTTest ([(1 : ℝ), 1].map finite) ([(2 : ℝ), 3].map finite)).t) :=
  (paired_swap_antisymm [(1 : ℝ), 1] [(2 : ℝ), 3] (by decide) (by decide)
    (by
      rw [sdR, Real.sqrt_ne_zero']
      norm_num [varianceR, varNumR, meanR, sumR, diffsR, List.zipWith,
        List.foldl])).1

end LatStat
